import Mathlib

/-!
# Shallow embedding of the `adobe-swatch-exchange` codec

A Lean model of the Rust crate `adobe-swatch-exchange` (an encoder/decoder
for Adobe Swatch Exchange `.ase` files), translated function by function
from `src/lib.rs`, `src/buffer.rs`, `src/error.rs` and `src/types/*.rs`.

Modelling conventions:

* Bytes are `Nat` (the code only ever produces and consumes values `< 256`);
  byte streams and buffers are `List Nat`.
* Rust `String` names are modelled as `List Nat` of Unicode scalar values;
  `String::len` (the UTF-8 byte count) and `str::encode_utf16` are modelled
  explicitly (`nameUtf8Len`, `encodeUtf16`), as is `String::from_utf16`.
* `f32` channel values are carried as their IEEE-754 binary32 bit patterns
  (`Nat`, `< 2^32`); `f32::to_be_bytes`/`from_be_bytes` are then plain
  base-256 conversions.  The only floating-point arithmetic in the crate,
  the LAB `L*` channel scaling by `* 100.0` / `/ 100.0`, is modelled by an
  executable round-to-nearest-even binary32 rounding (`labMul100`,
  `labDiv100`); NaN payload propagation is modelled as the identity.
* `std::io::Read::read_exact` over a byte slice is modelled by taking from
  the front of the stream, failing with `ASEError.Io` when fewer bytes
  remain than requested (Rust returns an `UnexpectedEof` io error there).
* The `while blocks_to_read > 0` loop of `read_ase` and the block loop of
  `Group::parse` terminate because every iteration consumes at least two
  bytes of the finite input; this is made explicit with a `fuel` parameter
  initialised to more than the input length, so fuel can never run out on
  the calls the crate makes (out-of-fuel returns the same errors as an
  exhausted reader).
-/

namespace ASE

/-- Mirror of `error.rs` `ConformationError`. -/
inductive ConformationError
  | FileVersion
  | FileSignature
  | GroupEnd
  deriving DecidableEq, Repr

/-- Mirror of `error.rs` `ASEError`.  The `Io` constructor stands for
`ASEError::Io(_)`: the model does not track the wrapped `std::io::Error`
payload, since the only io errors reachable through a byte-slice reader are
`UnexpectedEof` from `read_exact`. -/
inductive ASEError
  | Io
  | Invalid (err : ConformationError)
  | ColorFormat
  | UTF16Error
  | ColorTypeError
  | BlockTypeError
  | InputDataParseError
  deriving DecidableEq, Repr

/-- Mirror of `block_type.rs` `BlockType`. -/
inductive BlockType
  | GroupStart
  | GroupEnd
  | ColorEntry
  deriving DecidableEq, Repr

/-- Mirror of `color_type.rs` `ColorType`. -/
inductive ColorType
  | Global
  | Spot
  | Normal
  deriving DecidableEq, Repr

/-- The discriminant values of `ColorType` (`Global = 0, Spot = 1, Normal = 2`),
as used by `block.color_type as u16` during encoding. -/
def ColorType.toNat : ColorType → Nat
  | .Global => 0
  | .Spot => 1
  | .Normal => 2

/-- Mirror of `color_value.rs` `ColorValue`.  Channels are IEEE-754 binary32
bit patterns (see the module docstring). -/
inductive ColorValue
  | Cmyk (c m y k : Nat)
  | Rgb (r g b : Nat)
  | Lab (l a b : Nat)
  | Gray (value : Nat)
  deriving DecidableEq, Repr

/-- Mirror of `color_block.rs` `ColorBlock`.  `name` is the list of Unicode
scalar values of the Rust `String`. -/
structure ColorBlock where
  name : List Nat
  color : ColorValue
  color_type : ColorType
  deriving DecidableEq, Repr

/-- Mirror of `group.rs` `Group`. -/
structure Group where
  name : List Nat
  blocks : List ColorBlock
  deriving DecidableEq, Repr

/-- Mirror of `group.rs` `GroupHold` (decoder-only transient state). -/
inductive GroupHold
  | HoldingBuilding
  | HoldingBuilt
  | Empty
  deriving DecidableEq, Repr

/-- `types/mod.rs` `FILE_SIGNATURE`: the bytes of `ASEF`. -/
def FILE_SIGNATURE : List Nat := [65, 83, 69, 70]

/-- `types/mod.rs` `VERSION`. -/
def VERSION : Nat := 0x00010000

/-- Big-endian value of a 2-byte slice (`u16::from_be_bytes`).  Only ever
applied to 2-element lists. -/
def be2 : List Nat → Nat
  | [a, b] => a * 256 + b
  | _ => 0

/-- Big-endian value of a 4-byte slice (`u32::from_be_bytes`).  Only ever
applied to 4-element lists. -/
def be4 : List Nat → Nat
  | [a, b, c, d] => ((a * 256 + b) * 256 + c) * 256 + d
  | _ => 0

/-- `u16::to_be_bytes` (the Rust `as u16` truncation is folded in). -/
def u16be (n : Nat) : List Nat := [n % 65536 / 256, n % 256]

/-- `u32::to_be_bytes` (the Rust `as u32` truncation is folded in). -/
def u32be (n : Nat) : List Nat :=
  [n % 2 ^ 32 / 2 ^ 24, n % 2 ^ 24 / 2 ^ 16, n % 2 ^ 16 / 2 ^ 8, n % 2 ^ 8]

/-- Rust `bytes.get(a..b)` on a slice: `some` iff `a ≤ b ∧ b ≤ bytes.length`. -/
def sliceGet (bytes : List Nat) (a b : Nat) : Option (List Nat) :=
  if a ≤ b ∧ b ≤ bytes.length then some ((bytes.drop a).take (b - a)) else none

/-- Rust `bytes.get(a..)` on a slice: `some` iff `a ≤ bytes.length`. -/
def sliceFrom (bytes : List Nat) (a : Nat) : Option (List Nat) :=
  if a ≤ bytes.length then some (bytes.drop a) else none

/-- The UTF-8 byte count of one Unicode scalar value (summand of
`String::len`). -/
def utf8Len (c : Nat) : Nat :=
  if c < 0x80 then 1 else if c < 0x800 then 2 else if c < 0x10000 then 3 else 4

/-- `String::len` of a name: its UTF-8 byte count. -/
def nameUtf8Len (name : List Nat) : Nat := (name.map utf8Len).sum

/-- `str::encode_utf16` for one scalar value: one code unit below `0x10000`,
a surrogate pair above. -/
def encodeUtf16Char (c : Nat) : List Nat :=
  if c < 0x10000 then [c]
  else [0xD800 + (c - 0x10000) / 0x400, 0xDC00 + (c - 0x10000) % 0x400]

/-- `str::encode_utf16` of a name. -/
def encodeUtf16 (name : List Nat) : List Nat :=
  (name.map encodeUtf16Char).flatten

/-- `String::from_utf16`: decodes UTF-16 code units, pairing surrogates and
failing (`UTF16Error`, via the `From<FromUtf16Error>` impl in `error.rs`)
on unpaired surrogates. -/
def fromUtf16 : List Nat → Except ASEError (List Nat)
  | [] => .ok []
  | u :: rest =>
    if u < 0xD800 ∨ 0xE000 ≤ u then
      match fromUtf16 rest with
      | .ok cs => .ok (u :: cs)
      | .error e => .error e
    else if u < 0xDC00 then
      match rest with
      | v :: rest2 =>
        if 0xDC00 ≤ v ∧ v < 0xE000 then
          match fromUtf16 rest2 with
          | .ok cs => .ok ((0x10000 + (u - 0xD800) * 0x400 + (v - 0xDC00)) :: cs)
          | .error e => .error e
        else .error .UTF16Error
      | [] => .error .UTF16Error
    else .error .UTF16Error

/-- `chunks_exact(2)` followed by `u16::from_be_bytes` on each chunk (the
trailing odd byte, if any, is dropped, as `chunks_exact` does). -/
def beU16s : List Nat → List Nat
  | a :: b :: rest => (a * 256 + b) :: beU16s rest
  | _ => []

/-- `buffer.rs` `write_null_terminated_utf_16_str`: the UTF-16 code units of
the name, each as two big-endian bytes, followed by a `0x0000` terminator. -/
def writeNullTerminatedUtf16Str (name : List Nat) : List Nat :=
  ((encodeUtf16 name).map u16be).flatten ++ u16be 0

/-- Nearest integer to `num / den`, ties to even (`den ≠ 0` at all uses). -/
def rneDiv (num den : Nat) : Nat :=
  let q := num / den
  let r := num % den
  if 2 * r < den then q
  else if den < 2 * r then q + 1
  else if q % 2 = 0 then q else q + 1

/-- Round the positive rational `num / den` to the nearest IEEE-754 binary32
value (ties to even), returned as the bit pattern without the sign bit;
overflow gives the infinity pattern.  Values below `2 ^ (-160)` return `0`
(unreachable from the uses in this file, whose inputs stay above
`2 ^ (-157)`). -/
def roundPosRatToF32 (num den : Nat) : Nat :=
  let scaled := num * 2 ^ 160 / den
  if scaled = 0 then 0
  else
    let e : Int := (Nat.log2 scaled : Int) - 160
    if e < -126 then rneDiv (num * 2 ^ 149) den
    else
      let s : Int := 23 - e
      let m := if 0 ≤ s then rneDiv (num * 2 ^ s.toNat) den
               else rneDiv num (den * 2 ^ (-s).toNat)
      let me := if m = 2 ^ 24 then (2 ^ 23, e + 1) else (m, e)
      if 127 < me.2 then 0x7F800000
      else (me.2 + 127).toNat * 2 ^ 23 + (me.1 - 2 ^ 23)

/-- Magnitude of a non-special binary32 bit pattern as `(mantissa, exponent)`
with value `mantissa * 2 ^ exponent`. -/
def f32MantExp (p : Nat) : Nat × Int :=
  let e : Nat := p / 2 ^ 23 % 256
  if e = 0 then (p % 2 ^ 23, -149) else (2 ^ 23 + p % 2 ^ 23, (e : Int) - 150)

/-- Model of the IEEE-754 binary32 multiplication `x * 100.0` on bit
patterns (the LAB `L*` decode scaling in `color_value.rs`).  Infinities
stay infinities and zeros stay zeros, as in IEEE-754; NaN payloads are
modelled as unchanged. -/
def labMul100 (p0 : Nat) : Nat :=
  let p := p0 % 2 ^ 32
  if p / 2 ^ 23 % 256 = 255 then p
  else
    let me := f32MantExp p
    if me.1 = 0 then p
    else
      p / 2 ^ 31 * 2 ^ 31 +
        (if 0 ≤ me.2 then roundPosRatToF32 (me.1 * 100 * 2 ^ me.2.toNat) 1
         else roundPosRatToF32 (me.1 * 100) (2 ^ (-me.2).toNat))

/-- Model of the IEEE-754 binary32 division `x / 100.0` on bit patterns
(the LAB `L*` encode scaling in `color_value.rs`), conventions as in
`labMul100`. -/
def labDiv100 (p0 : Nat) : Nat :=
  let p := p0 % 2 ^ 32
  if p / 2 ^ 23 % 256 = 255 then p
  else
    let me := f32MantExp p
    if me.1 = 0 then p
    else
      p / 2 ^ 31 * 2 ^ 31 +
        (if 0 ≤ me.2 then roundPosRatToF32 (me.1 * 2 ^ me.2.toNat) 100
         else roundPosRatToF32 me.1 (100 * 2 ^ (-me.2).toNat))

/-- `color_value.rs` `ColorValue::get_type`: the 4-byte ASCII tag
(`b"CMYK"`, `b"RGB "`, `b"LAB "`, `b"Gray"`). -/
def ColorValue.get_type : ColorValue → List Nat
  | .Cmyk _ _ _ _ => [67, 77, 89, 75]
  | .Rgb _ _ _ => [82, 71, 66, 32]
  | .Lab _ _ _ => [76, 65, 66, 32]
  | .Gray _ => [71, 114, 97, 121]

/-- `color_value.rs` `ColorValue::write_values`: each channel as four
big-endian bytes; the LAB `L*` channel is divided by `100.0` first. -/
def ColorValue.write_values : ColorValue → List Nat
  | .Cmyk c m y k => u32be c ++ u32be m ++ u32be y ++ u32be k
  | .Rgb r g b => u32be r ++ u32be g ++ u32be b
  | .Lab l a b => u32be (labDiv100 l) ++ u32be a ++ u32be b
  | .Gray v => u32be v

/-- `color_value.rs` `ColorValue::calculate_length`: payload length in
bytes. -/
def ColorValue.calculate_length : ColorValue → Nat
  | .Cmyk _ _ _ _ => 16
  | .Rgb _ _ _ | .Lab _ _ _ => 12
  | .Gray _ => 4

/-- The `f32_from_bytes` closure of `color_value.rs` `TryFrom<&[u8]>`:
read `value[a..b]` as a big-endian `f32` bit pattern, `InputDataParseError`
when out of range. -/
def f32FromBytes (value : List Nat) (a b : Nat) : Except ASEError Nat :=
  match sliceGet value a b with
  | none => .error .InputDataParseError
  | some s => .ok (be4 s)

/-- `color_value.rs` `TryFrom<&[u8]> for ColorValue`: dispatch on the first
four bytes; unknown tag is `ColorFormat`, a short slice is
`InputDataParseError`.  The LAB `L*` channel is multiplied by `100.0` after
reading. -/
def ColorValue.tryFrom (value : List Nat) : Except ASEError ColorValue :=
  match sliceGet value 0 4 with
  | some t =>
    if t = [67, 77, 89, 75] then
      match f32FromBytes value 4 8, f32FromBytes value 8 12,
            f32FromBytes value 12 16, f32FromBytes value 16 20 with
      | .ok c, .ok m, .ok y, .ok k => .ok (.Cmyk c m y k)
      | .error e, _, _, _ => .error e
      | _, .error e, _, _ => .error e
      | _, _, .error e, _ => .error e
      | _, _, _, .error e => .error e
    else if t = [82, 71, 66, 32] then
      match f32FromBytes value 4 8, f32FromBytes value 8 12,
            f32FromBytes value 12 16 with
      | .ok r, .ok g, .ok b => .ok (.Rgb r g b)
      | .error e, _, _ => .error e
      | _, .error e, _ => .error e
      | _, _, .error e => .error e
    else if t = [76, 65, 66, 32] then
      match f32FromBytes value 4 8, f32FromBytes value 8 12,
            f32FromBytes value 12 16 with
      | .ok l, .ok a, .ok b => .ok (.Lab (labMul100 l) a b)
      | .error e, _, _ => .error e
      | _, .error e, _ => .error e
      | _, _, .error e => .error e
    else if t = [71, 114, 97, 121] then
      match f32FromBytes value 4 8 with
      | .ok v => .ok (.Gray v)
      | .error e => .error e
    else .error .ColorFormat
  | none => .error .InputDataParseError

/-- `color_type.rs` `TryFrom<&u8> for ColorType`: `0 → Global`, `1 → Spot`,
`2 → Normal`, anything else `ColorTypeError`. -/
def ColorType.tryFrom (value : Nat) : Except ASEError ColorType :=
  if value = 0 then .ok .Global
  else if value = 1 then .ok .Spot
  else if value = 2 then .ok .Normal
  else .error .ColorTypeError

/-- `block_type.rs` `TryFrom<u16> for BlockType`: `0x0001 → ColorEntry`,
`0xC001 → GroupStart`, `0xC002 → GroupEnd`.  For any other value the source
has `Err(ASEError::Invalid)`, which does not typecheck — `Invalid` carries a
`ConformationError` payload — so no compiled behaviour exists for that arm;
the crate's own tests (`it_returns_incorrect_block_type_error` in `lib.rs`,
`it_returns_error_on_invalid_block_type` in `group.rs`) pin the intended
error to `ASEError::BlockTypeError`, which is what this model returns. -/
def BlockType.tryFrom (value : Nat) : Except ASEError BlockType :=
  if value = 0x0001 then .ok .ColorEntry
  else if value = 0xc001 then .ok .GroupStart
  else if value = 0xc002 then .ok .GroupEnd
  else .error .BlockTypeError

/-- `color_block.rs` `ColorBlock::calculate_length`: `2` (name length field)
`+ name.len() * 2 + 2` (terminator) `+ 4` (color tag) `+` payload `+ 2`
(color type).  Note that `self.name.len()` in Rust is the UTF-8 byte count
of the name. -/
def ColorBlock.calculate_length (b : ColorBlock) : Nat :=
  2 + nameUtf8Len b.name * 2 + 2 + 4 + b.color.calculate_length + 2

/-- `color_block.rs` `ColorBlock::write`: ColorEntry tag, computed length,
name length field (`name.len() as u16 + 1`), null-terminated UTF-16 name,
color tag and payload, color type. -/
def ColorBlock.write (b : ColorBlock) : List Nat :=
  u16be 0x0001 ++ u32be b.calculate_length ++
    u16be (nameUtf8Len b.name + 1) ++ writeNullTerminatedUtf16Str b.name ++
    b.color.get_type ++ b.color.write_values ++ u16be b.color_type.toNat

/-- `color_block.rs` `ColorBlock::parse`. -/
def ColorBlock.parse (bytes : List Nat) : Except ASEError ColorBlock :=
  match sliceGet bytes 0 2 with
  | none => .error .InputDataParseError
  | some nlb =>
    let nameLength := be2 nlb
    match sliceGet bytes 2 (nameLength * 2) with
    | none => .error .InputDataParseError
    | some nameBytes =>
      match fromUtf16 (beU16s nameBytes) with
      | .error e => .error e
      | .ok name =>
        let colorValueStart := nameLength * 2 + 2
        match sliceFrom bytes colorValueStart with
        | none => .error .InputDataParseError
        | some colorSlice =>
          match ColorValue.tryFrom colorSlice with
          | .error e => .error e
          | .ok colorValue =>
            let colorTypeStart := colorValueStart + colorValue.calculate_length + 4
            match bytes.get? (colorTypeStart + 1) with
            | none => .error .InputDataParseError
            | some ctByte =>
              match ColorType.tryFrom ctByte with
              | .error e => .error e
              | .ok colorType => .ok ⟨name, colorValue, colorType⟩

/-- `group.rs` `Group::calculate_length`: name fields plus, per block, its
length and the 2 tag and 4 length-field bytes. -/
def Group.calculate_length (g : Group) : Nat :=
  2 + nameUtf8Len g.name * 2 + 2 +
    (g.blocks.map (fun b => b.calculate_length + 2 + 4)).sum

/-- `group.rs` `Group::write`: GroupStart tag, computed length, name fields,
every block's full encoding, GroupEnd tag. -/
def Group.write (g : Group) : List Nat :=
  u16be 0xc001 ++ u32be g.calculate_length ++
    u16be (nameUtf8Len g.name + 1) ++ writeNullTerminatedUtf16Str g.name ++
    (g.blocks.map ColorBlock.write).flatten ++ u16be 0xc002

/-- The block loop of `group.rs` `Group::parse` (from `let mut pointer`):
while more than one byte remains past `pointer`, read a 2-byte tag
(`BlockTypeError` on an unrecognized value), stop on a non-ColorEntry tag,
read the 4-byte length field, try to parse a ColorBlock from the rest of
the slice — stopping, without an error, when that fails — and advance
`pointer` by the declared length.  Every continuing iteration advances
`pointer` by at least 6, which bounds the iteration count by the slice
length; `fuel` makes that explicit and never runs out on the crate's calls. -/
def Group.parseLoop : Nat → List Nat → Nat → List ColorBlock → Except ASEError (List ColorBlock)
  | fuel, bytes, pointer, blocks =>
    if bytes.length - 1 ≤ pointer then .ok blocks
    else
      match fuel with
      | 0 => .error .InputDataParseError
      | fuel' + 1 =>
        match sliceGet bytes pointer (pointer + 2) with
        | none => .error .InputDataParseError
        | some tagBytes =>
          match BlockType.tryFrom (be2 tagBytes) with
          | .error e => .error e
          | .ok blockType =>
            if blockType ≠ .ColorEntry then .ok blocks
            else
              match sliceGet bytes (pointer + 2) (pointer + 2 + 4) with
              | none => .error .InputDataParseError
              | some lenBytes =>
                let blockLength := be4 lenBytes
                match sliceFrom bytes (pointer + 2 + 4) with
                | none => .error .InputDataParseError
                | some tail =>
                  match ColorBlock.parse tail with
                  | .error _ => .ok blocks
                  | .ok block =>
                    Group.parseLoop fuel' bytes (pointer + 2 + 4 + blockLength)
                      (blocks ++ [block])

/-- `group.rs` `Group::parse`: name exactly as in `ColorBlock::parse`, then
the block loop starting at `name_length * 2 + 2`. -/
def Group.parse (bytes : List Nat) : Except ASEError Group :=
  match sliceGet bytes 0 2 with
  | none => .error .InputDataParseError
  | some nlb =>
    let nameLength := be2 nlb
    match sliceGet bytes 2 (nameLength * 2) with
    | none => .error .InputDataParseError
    | some nameBytes =>
      match fromUtf16 (beU16s nameBytes) with
      | .error e => .error e
      | .ok name =>
        match Group.parseLoop (bytes.length + 1) bytes (nameLength * 2 + 2) [] with
        | .error e => .error e
        | .ok blocks => .ok ⟨name, blocks⟩

/-- `lib.rs` `create_ase`: file signature, version, block count
(`groups.len() + colors.len()`), every group, every top-level color. -/
def create_ase (groups : List Group) (colors : List ColorBlock) : List Nat :=
  FILE_SIGNATURE ++ u32be VERSION ++ u32be (groups.length + colors.length) ++
    (groups.map Group.write).flatten ++ (colors.map ColorBlock.write).flatten

/-- The `while blocks_to_read > 0` loop of `lib.rs` `read_ase`, including
the post-loop handling of a still-held group.  Arguments mirror the Rust
locals: the remaining input, `blocks_to_read`, `group_hold`,
`group_hold_value`, the accumulated `groups` and `color_blocks`, `skipped`
and `safe_to_skip`.  Every iteration consumes at least two input bytes, so
with `fuel` above the input length (as `read_ase` passes it) fuel never
runs out; fuel exhaustion returns the exhausted-reader error `.Io`. -/
def readBlocks : Nat → List Nat → Nat → GroupHold → Group → List Group →
    List ColorBlock → Nat → Bool → Except ASEError (List Group × List ColorBlock)
  | fuel, s, blocksToRead, groupHold, groupHoldValue, groups, colorBlocks,
    skipped, safeToSkip =>
    if blocksToRead = 0 then
      -- after the loop (lib.rs lines 168–178)
      if groupHold = .HoldingBuilding then .ok (groups ++ [groupHoldValue], colorBlocks)
      else if groupHold = .HoldingBuilt then .error (.Invalid .GroupEnd)
      else .ok (groups, colorBlocks)
    else
      match fuel with
      | 0 => .error .Io
      | fuel' + 1 =>
        if s.length < 2 then .error .Io
        else
          let tagBytes := s.take 2
          let s1 := s.drop 2
          if tagBytes = [0, 0] ∧ skipped < 2 ∧ safeToSkip = true then
            readBlocks fuel' s1 blocksToRead groupHold groupHoldValue groups
              colorBlocks (skipped + 1) safeToSkip
          else
            match BlockType.tryFrom (be2 tagBytes) with
            | .error e => .error e
            | .ok blockType =>
              if blockType ≠ .GroupEnd ∧ groupHold = .HoldingBuilt then
                .error (.Invalid .GroupEnd)
              else
                -- block length: none for GroupEnd (arming the padding skip),
                -- otherwise a u32 field (disarming it)
                match (if blockType = .GroupEnd then .ok (0, s1, 0, true)
                       else if s1.length < 4 then .error .Io
                       else .ok (be4 (s1.take 4), s1.drop 4, skipped, false) :
                    Except ASEError (Nat × List Nat × Nat × Bool)) with
                | .error e => .error e
                | .ok (blockLength, s2, skipped2, safeToSkip2) =>
                  if s2.length < blockLength then .error .Io
                  else
                    let block := s2.take blockLength
                    let s3 := s2.drop blockLength
                    match blockType with
                    | .GroupStart =>
                      match Group.parse block with
                      | .error e => .error e
                      | .ok g =>
                        if groupHold ≠ .Empty then .error (.Invalid .GroupEnd)
                        else if g.blocks = [] then
                          readBlocks fuel' s3 (blocksToRead - 1) .HoldingBuilding g
                            groups colorBlocks skipped2 safeToSkip2
                        else
                          readBlocks fuel' s3 (blocksToRead + 1 - 1) .HoldingBuilt g
                            groups colorBlocks skipped2 safeToSkip2
                    | .GroupEnd =>
                      match groupHold with
                      | .HoldingBuilding | .HoldingBuilt =>
                        readBlocks fuel' s3 (blocksToRead - 1) .Empty groupHoldValue
                          (groups ++ [groupHoldValue]) colorBlocks skipped2 safeToSkip2
                      | .Empty => .error (.Invalid .GroupEnd)
                    | .ColorEntry =>
                      match ColorBlock.parse block with
                      | .error e => .error e
                      | .ok b =>
                        match groupHold with
                        | .HoldingBuilding =>
                          readBlocks fuel' s3 (blocksToRead - 1) .HoldingBuilding
                            ⟨groupHoldValue.name, groupHoldValue.blocks ++ [b]⟩
                            groups colorBlocks skipped2 safeToSkip2
                        | .Empty =>
                          readBlocks fuel' s3 (blocksToRead - 1) .Empty groupHoldValue
                            groups (colorBlocks ++ [b]) skipped2 safeToSkip2
                        | .HoldingBuilt => .error (.Invalid .GroupEnd)

/-- `lib.rs` `read_ase`: validate the signature and version, read the block
count, then run the block loop from the `GroupHold::Empty`,
`Group::default()`, `skipped = 0`, `safe_to_skip = false` initial state. -/
def read_ase (s : List Nat) : Except ASEError (List Group × List ColorBlock) :=
  if s.length < 4 then .error .Io
  else if s.take 4 ≠ FILE_SIGNATURE then .error (.Invalid .FileSignature)
  else
    let s1 := s.drop 4
    if s1.length < 4 then .error .Io
    else if s1.take 4 ≠ u32be VERSION then .error (.Invalid .FileVersion)
    else
      let s2 := s1.drop 4
      if s2.length < 4 then .error .Io
      else
        readBlocks ((s2.drop 4).length + 1) (s2.drop 4) (be4 (s2.take 4))
          .Empty ⟨[], []⟩ [] [] 0 false

/-!
## Theorems
-/

/-- C1.  The claimed universal round-trip `read_ase (create_ase groups
colors) = .ok (groups, colors)` fails on the code: for a color whose name is
not ASCII — here the single scalar `U+00A1`, with UTF-8 byte count 2 but a
single UTF-16 code unit — `create_ase` writes a block length field of 18
(`calculate_length` counts `2 * name.len()`, the UTF-8 byte count, for the
name) while the block body it writes after that field is only 16 bytes long
(the name is re-encoded as UTF-16), so `read_ase` over-reads the block and
fails with an `Io` (unexpected end of file) error.  `0x3F000000` is the bit
pattern of the `f32` value `0.5`. -/
theorem c1_roundtrip_fails_on_nonascii_name :
    read_ase (create_ase [] [⟨[0xA1], .Gray 0x3F000000, .Normal⟩]) = .error .Io := rfl

/-- C5.  The crate's intent — fixed by its own tests
(`it_returns_incorrect_block_type_error`, `it_returns_error_on_invalid_block_type`)
and the spec — is that an unrecognized 2-byte block tag resolves to
`ASEError::BlockTypeError`; the source line in `block_type.rs` instead has
`Err(ASEError::Invalid)`, which does not typecheck (`Invalid` carries a
`ConformationError` payload).  This theorem evaluates the model, which
follows the tests, at the tag `0x0002` and at the test input of
`it_returns_incorrect_block_type_error`. -/
theorem c5_unknown_block_tag_eval :
    BlockType.tryFrom 0x0002 = .error .BlockTypeError ∧
      read_ase [65, 83, 69, 70, 0, 1, 0, 0, 0, 0, 0, 1, 0, 2, 0, 0, 0, 22, 0, 5, 0,
        110, 0, 97, 0, 109, 0, 101, 0, 0, 71, 114, 97, 121, 63, 0, 0, 0, 0, 2] =
        .error .BlockTypeError :=
  ⟨rfl, rfl⟩

/-- C6.  The claimed length formula counts `2 ×` the number of UTF-16 code
units of the name; `ColorBlock::calculate_length` actually counts `2 ×
name.len()`, the UTF-8 byte count.  For the one-scalar name `U+00A1` (two
UTF-8 bytes, one UTF-16 unit) the code computes 22 − 4 = 18 where the
claimed formula gives 16, and `write` stores 18 in the length field of a
block whose body after that field is 16 bytes — the formula in the claim
(and in the function's own doc comment, `name * 2 (UTF 16)`) is what the
encoded layout actually occupies. -/
theorem c6_length_uses_utf8_count :
    ColorBlock.calculate_length ⟨[0xA1], .Gray 0x3F000000, .Normal⟩ = 18 ∧
      2 + 2 * (encodeUtf16 [0xA1]).length + 2 + 4 +
        (ColorValue.Gray 0x3F000000).calculate_length + 2 = 16 ∧
      ColorBlock.write ⟨[0xA1], .Gray 0x3F000000, .Normal⟩ =
        [0, 1, 0, 0, 0, 18] ++
          [0, 3, 0, 161, 0, 0, 71, 114, 97, 121, 63, 0, 0, 0, 0, 2] :=
  ⟨rfl, rfl, rfl⟩

/-- C8.  Encoding a file with no groups and the single top-level color block
named `name` (scalars `110, 97, 109, 101`) with color `Gray(0.5)` (bit
pattern `0x3F000000`) and color type `Normal` produces exactly the byte
sequence of the claim. -/
theorem c8_single_gray_encoding :
    create_ase [] [⟨[110, 97, 109, 101], .Gray 0x3F000000, .Normal⟩] =
      [65, 83, 69, 70, 0, 1, 0, 0, 0, 0, 0, 1, 0, 1, 0, 0, 0, 22, 0, 5, 0, 110,
        0, 97, 0, 109, 0, 101, 0, 0, 71, 114, 97, 121, 63, 0, 0, 0, 0, 2] := rfl

/-- C7, counterexample.  The claim says the ColorType is read from the byte
at the position immediately following the color payload; on this input that
byte is `28` (not a valid ColorType), so the claim predicts a
`ColorTypeError` failure.  `ColorBlock::parse` actually reads the byte one
further (`bytes.get(color_type_start + 1)`, the low byte of the 2-byte
color-type field), which here is `0`, and the parse succeeds with
`ColorType::Global`. -/
theorem c7_counterexample :
    ColorBlock.parse [0, 1, 0, 0, 71, 114, 97, 121, 63, 0, 0, 0, 28, 0] =
      .ok ⟨[], .Gray 0x3F000000, .Global⟩ := rfl

/-- C4, counterexample.  On input `[0, 1, 0, 0, 0, 255]` the group name (the
empty name, length field 1) parses successfully, but `Group::parse` does not
return `Ok`: the next 2-byte tag `0x00FF` is not the ColorEntry tag, and
instead of stopping without error the loop propagates the block-tag
resolution failure (the crate's own test
`it_returns_error_on_invalid_block_type` expects exactly this). -/
theorem c4_counterexample :
    Group.parse [0, 1, 0, 0, 0, 255] = .error .BlockTypeError := rfl

/-- C2, counterexample.  This input contains exactly one extra zero-valued
2-byte word immediately after its GroupEnd tag, and its block-count field
(3) does not count that word; the claim asserts that `read_ase` succeeds on
every such input.  It does not: here the block after the extra zero word has
the unrecognized tag `0xFFFF`, so the decode fails (as it also does with the
extra word removed) — success additionally requires the input without the
extra word to decode successfully. -/
theorem c2_counterexample :
    read_ase [65, 83, 69, 70, 0, 1, 0, 0, 0, 0, 0, 3, 192, 1, 0, 0, 0, 6,
        0, 2, 0, 97, 0, 0, 192, 2, 0, 0, 255, 255] =
      .error .BlockTypeError := rfl

/-- While `safe_to_skip` is false the `skipped` counter is dead state: the
skip branch cannot fire, and the counter is reset to zero by the next
GroupEnd block before `safe_to_skip` can become true again. -/
theorem readBlocks_skipped_dead (fuel : Nat) :
    ∀ (s : List Nat) (n : Nat) (h : GroupHold) (hv : Group) (gs : List Group)
      (cs : List ColorBlock) (k k' : Nat),
      readBlocks fuel s n h hv gs cs k false = readBlocks fuel s n h hv gs cs k' false := by
  induction fuel with
  | zero =>
    intro s n h hv gs cs k k'
    rw [readBlocks.eq_def]
    conv_rhs => rw [readBlocks.eq_def]
  | succ m ih =>
    intro s n h hv gs cs k k'
    rw [readBlocks.eq_def]
    conv_rhs => rw [readBlocks.eq_def]
    by_cases hn : n = 0
    · simp [hn]
    · simp only [hn, if_neg hn, Bool.false_eq_true, and_false, if_false]
      by_cases hs : s.length < 2
      · simp only [if_pos hs]
      · simp only [if_neg hs]
        cases htf : BlockType.tryFrom (be2 (s.take 2)) with
        | error e => rfl
        | ok blockType =>
          by_cases hbt : blockType ≠ BlockType.GroupEnd ∧ h = GroupHold.HoldingBuilt
          · simp only [if_pos hbt]
          · simp only [if_neg hbt]
            by_cases hge : blockType = BlockType.GroupEnd
            · simp only [if_pos hge]
            · simp only [if_neg hge]
              by_cases hs4 : (s.drop 2).length < 4
              · simp only [if_pos hs4]
              · simp only [if_neg hs4]
                by_cases hpl : ((s.drop 2).drop 4).length < be4 ((s.drop 2).take 4)
                · simp only [if_pos hpl]
                · simp only [if_neg hpl]
                  cases blockType with
                  | GroupEnd => exact absurd rfl hge
                  | GroupStart =>
                    cases Group.parse (((s.drop 2).drop 4).take (be4 ((s.drop 2).take 4))) with
                    | error e => rfl
                    | ok g =>
                      by_cases hh : h ≠ GroupHold.Empty
                      · simp only [if_pos hh]
                      · simp only [if_neg hh]
                        by_cases hgb : g.blocks = []
                        · simp only [if_pos hgb]; exact ih ..
                        · simp only [if_neg hgb]; exact ih ..
                  | ColorEntry =>
                    cases ColorBlock.parse (((s.drop 2).drop 4).take (be4 ((s.drop 2).take 4))) with
                    | error e => rfl
                    | ok b =>
                      cases h with
                      | HoldingBuilding => exact ih ..
                      | Empty => exact ih ..
                      | HoldingBuilt => rfl

/-- C2 (amended).  At the decoder state reached immediately after
processing a GroupEnd block — `GroupHold` empty, the padding skip armed
(`safe_to_skip = true`) and no skips counted yet — one extra zero-valued
2-byte word prepended to the remaining stream leaves the decode result
unchanged (the blocks-remaining counter, which does not count the extra
word, and all accumulators being equal), provided the remaining stream does
not itself start with a further zero-valued word; in particular such an
input decodes successfully exactly when the input without the extra word
does.  (The proviso is forced: a second zero word would exhaust the
two-skip cap differently on the two sides, and `c2_counterexample` shows
plain success is not guaranteed.)  The extra skip iteration consumes one
unit of loop fuel, whence the `fuel + 1`. -/
theorem c2_zero_word_after_group_end (fuel : Nat) (rest : List Nat) (n : Nat)
    (hv : Group) (gs : List Group) (cs : List ColorBlock)
    (hrest : rest.take 2 ≠ [0, 0]) :
    readBlocks (fuel + 1) (0 :: 0 :: rest) n .Empty hv gs cs 0 true =
      readBlocks fuel rest n .Empty hv gs cs 0 true := by
  by_cases hn : n = 0
  · rw [readBlocks.eq_def]
    conv_rhs => rw [readBlocks.eq_def]
    simp [hn]
  · have hskip : readBlocks (fuel + 1) (0 :: 0 :: rest) n .Empty hv gs cs 0 true =
        readBlocks fuel rest n .Empty hv gs cs 1 true := by
      rw [readBlocks.eq_def]
      simp [hn, List.take_succ_cons, List.drop_succ_cons]
    rw [hskip]
    cases fuel with
    | zero =>
      rw [readBlocks.eq_def]
      conv_rhs => rw [readBlocks.eq_def]
    | succ m =>
      rw [readBlocks.eq_def]
      conv_rhs => rw [readBlocks.eq_def]
      by_cases hs : rest.length < 2
      · simp [hn, hs]
      · simp only [hn, if_neg hn, if_neg hs, hrest, false_and, if_false]
        cases htf : BlockType.tryFrom (be2 (rest.take 2)) with
        | error e => rfl
        | ok blockType =>
          simp only []
          by_cases hge : blockType = BlockType.GroupEnd
          · simp [hge]
          · simp only [if_neg hge]
            by_cases hs4 : (rest.drop 2).length < 4
            · simp only [if_pos hs4]
            · simp only [if_neg hs4]
              by_cases hpl : ((rest.drop 2).drop 4).length < be4 ((rest.drop 2).take 4)
              · simp only [if_pos hpl]
              · simp only [if_neg hpl]
                cases blockType with
                | GroupEnd => exact absurd rfl hge
                | GroupStart =>
                  cases Group.parse (((rest.drop 2).drop 4).take (be4 ((rest.drop 2).take 4))) with
                  | error e => rfl
                  | ok g =>
                    by_cases hgb : g.blocks = []
                    · simp only [if_pos hgb]; exact readBlocks_skipped_dead ..
                    · simp only [if_neg hgb]; exact readBlocks_skipped_dead ..
                | ColorEntry =>
                  cases ColorBlock.parse (((rest.drop 2).drop 4).take (be4 ((rest.drop 2).take 4))) with
                  | error e => rfl
                  | ok b => exact readBlocks_skipped_dead ..

/-- The block loop reads only the bytes the declared blocks occupy: a
successful run is unaffected by appending arbitrary bytes to the remaining
input (and by any larger fuel allowance). -/
theorem readBlocks_extend (extra : List Nat) (r : List Group × List ColorBlock) :
    ∀ (f1 f2 : Nat) (s : List Nat) (n : Nat) (h : GroupHold) (hv : Group)
      (gs : List Group) (cs : List ColorBlock) (k : Nat) (sf : Bool),
      f1 ≤ f2 →
      readBlocks f1 s n h hv gs cs k sf = .ok r →
      readBlocks f2 (s ++ extra) n h hv gs cs k sf = .ok r := by
  intro f1
  induction f1 with
  | zero =>
    intro f2 s n h hv gs cs k sf hle hok
    rw [readBlocks.eq_def] at hok
    rw [readBlocks.eq_def]
    by_cases hn : n = 0
    · subst hn; simpa using hok
    · simp [hn] at hok
  | succ m ih =>
    intro f2 s n h hv gs cs k sf hle hok
    by_cases hn : n = 0
    · subst hn
      rw [readBlocks.eq_def] at hok
      rw [readBlocks.eq_def]
      simpa using hok
    · obtain ⟨m2, rfl⟩ : ∃ m2, f2 = m2 + 1 := ⟨f2 - 1, by omega⟩
      have hle2 : m ≤ m2 := by omega
      rw [readBlocks.eq_def] at hok
      rw [readBlocks.eq_def]
      simp only [if_neg hn] at hok ⊢
      by_cases hs : s.length < 2
      · simp only [if_pos hs] at hok; exact absurd hok (by simp)
      · have hsx : ¬ (s ++ extra).length < 2 := by
          simp only [List.length_append]; omega
        simp only [if_neg hs] at hok
        simp only [if_neg hsx]
        rw [List.take_append_of_le_length (by omega),
          List.drop_append_of_le_length (by omega)]
        by_cases hskip : s.take 2 = [0, 0] ∧ k < 2 ∧ sf = true
        · simp only [if_pos hskip] at hok ⊢
          exact ih m2 (s.drop 2) n h hv gs cs (k + 1) sf hle2 hok
        · simp only [if_neg hskip] at hok ⊢
          cases htf : BlockType.tryFrom (be2 (s.take 2)) with
          | error e => rw [htf] at hok; exact absurd hok (by simp)
          | ok blockType =>
            rw [htf] at hok
            simp only [] at hok ⊢
            by_cases hbt : blockType ≠ BlockType.GroupEnd ∧ h = GroupHold.HoldingBuilt
            · simp only [if_pos hbt] at hok; exact absurd hok (by simp)
            · simp only [if_neg hbt] at hok ⊢
              by_cases hge : blockType = BlockType.GroupEnd
              · -- GroupEnd: no length field, empty payload
                subst hge
                simp only [if_pos rfl, if_neg (Nat.not_lt_zero 0), List.take_zero,
                  List.drop_zero] at hok ⊢
                cases h with
                | Empty => exact absurd hok (by simp)
                | HoldingBuilding =>
                  exact ih m2 (s.drop 2) (n - 1) .Empty hv (gs ++ [hv]) cs 0 true hle2 hok
                | HoldingBuilt =>
                  exact ih m2 (s.drop 2) (n - 1) .Empty hv (gs ++ [hv]) cs 0 true hle2 hok
              · simp only [if_neg hge] at hok ⊢
                by_cases h4 : (s.drop 2).length < 4
                · simp only [if_pos h4] at hok; exact absurd hok (by simp)
                · have h4x : ¬ (s.drop 2 ++ extra).length < 4 := by
                    simp only [List.length_append]; omega
                  simp only [if_neg h4, if_neg h4x] at hok ⊢
                  rw [List.take_append_of_le_length (by omega),
                    List.drop_append_of_le_length (by omega)]
                  by_cases hpl : ((s.drop 2).drop 4).length < be4 ((s.drop 2).take 4)
                  · simp only [if_pos hpl] at hok; exact absurd hok (by simp)
                  · have hplx : ¬ (((s.drop 2).drop 4) ++ extra).length <
                        be4 ((s.drop 2).take 4) := by
                      simp only [List.length_append]; omega
                    simp only [if_neg hpl] at hok
                    simp only [if_neg hplx]
                    rw [List.take_append_of_le_length (by omega),
                      List.drop_append_of_le_length (by omega)]
                    cases blockType with
                    | GroupEnd => exact absurd rfl hge
                    | GroupStart =>
                      cases hgp : Group.parse (((s.drop 2).drop 4).take
                          (be4 ((s.drop 2).take 4))) with
                      | error e => rw [hgp] at hok; exact absurd hok (by simp)
                      | ok g =>
                        rw [hgp] at hok
                        simp only [] at hok ⊢
                        by_cases hh : h ≠ GroupHold.Empty
                        · simp only [if_pos hh] at hok; exact absurd hok (by simp)
                        · simp only [if_neg hh] at hok ⊢
                          by_cases hgb : g.blocks = []
                          · simp only [if_pos hgb] at hok ⊢
                            exact ih m2 _ (n - 1) .HoldingBuilding g gs cs _ _ hle2 hok
                          · simp only [if_neg hgb] at hok ⊢
                            exact ih m2 _ (n + 1 - 1) .HoldingBuilt g gs cs _ _ hle2 hok
                    | ColorEntry =>
                      cases hcp : ColorBlock.parse (((s.drop 2).drop 4).take
                          (be4 ((s.drop 2).take 4))) with
                      | error e => rw [hcp] at hok; exact absurd hok (by simp)
                      | ok b =>
                        rw [hcp] at hok
                        simp only [] at hok ⊢
                        cases h with
                        | HoldingBuilding =>
                          exact ih m2 _ (n - 1) .HoldingBuilding _ gs cs _ _ hle2 hok
                        | Empty =>
                          exact ih m2 _ (n - 1) .Empty hv gs (cs ++ [b]) _ _ hle2 hok
                        | HoldingBuilt => exact absurd hok (by simp)

/-- C2, witness: at a post-GroupEnd state, one extra zero word before a
well-formed ColorEntry block changes nothing, and the decode succeeds. -/
theorem c2_zero_word_after_group_end_witness :
    readBlocks 22 (0 :: 0 :: [0, 1, 0, 0, 0, 14, 0, 1, 0, 0, 71, 114, 97, 121,
        63, 0, 0, 0, 0, 2]) 1 .Empty ⟨[], []⟩ [] [] 0 true =
      readBlocks 21 [0, 1, 0, 0, 0, 14, 0, 1, 0, 0, 71, 114, 97, 121,
        63, 0, 0, 0, 0, 2] 1 .Empty ⟨[], []⟩ [] [] 0 true ∧
    readBlocks 21 [0, 1, 0, 0, 0, 14, 0, 1, 0, 0, 71, 114, 97, 121,
        63, 0, 0, 0, 0, 2] 1 .Empty ⟨[], []⟩ [] [] 0 true =
      .ok ([], [⟨[], .Gray 0x3F000000, .Normal⟩]) :=
  ⟨c2_zero_word_after_group_end 21 _ 1 _ [] [] (by decide), rfl⟩

/-- C10.  `read_ase` consumes only the 12-byte header and the declared
blocks: appending arbitrary bytes to an input it accepts does not change
the result. -/
theorem c10_read_ase_ignores_suffix (s extra : List Nat)
    (r : List Group × List ColorBlock) (hok : read_ase s = .ok r) :
    read_ase (s ++ extra) = .ok r := by
  simp only [read_ase] at hok ⊢
  by_cases h1 : s.length < 4
  · simp only [if_pos h1] at hok; exact absurd hok (by simp)
  · have h1x : ¬ (s ++ extra).length < 4 := by simp only [List.length_append]; omega
    simp only [if_neg h1] at hok
    simp only [if_neg h1x]
    rw [List.take_append_of_le_length (by omega),
      List.drop_append_of_le_length (by omega)]
    by_cases h2 : s.take 4 ≠ FILE_SIGNATURE
    · simp only [if_pos h2] at hok; exact absurd hok (by simp)
    · simp only [if_neg h2] at hok ⊢
      by_cases h3 : (s.drop 4).length < 4
      · simp only [if_pos h3] at hok; exact absurd hok (by simp)
      · have h3x : ¬ ((s.drop 4) ++ extra).length < 4 := by
          simp only [List.length_append]; omega
        simp only [if_neg h3] at hok
        simp only [if_neg h3x]
        rw [List.take_append_of_le_length (by omega),
          List.drop_append_of_le_length (by omega)]
        by_cases h4 : (s.drop 4).take 4 ≠ u32be VERSION
        · simp only [if_pos h4] at hok; exact absurd hok (by simp)
        · simp only [if_neg h4] at hok ⊢
          by_cases h5 : ((s.drop 4).drop 4).length < 4
          · simp only [if_pos h5] at hok; exact absurd hok (by simp)
          · have h5x : ¬ (((s.drop 4).drop 4) ++ extra).length < 4 := by
              simp only [List.length_append]; omega
            simp only [if_neg h5] at hok
            simp only [if_neg h5x]
            rw [List.take_append_of_le_length (by omega),
              List.drop_append_of_le_length (by omega)]
            refine readBlocks_extend extra r _ _ _ _ _ _ _ _ _ _ ?_ hok
            simp only [List.length_append]; omega

/-- C10, witness: the empty file followed by two junk bytes still decodes
to no groups and no colors. -/
theorem c10_read_ase_ignores_suffix_witness :
    read_ase ([65, 83, 69, 70, 0, 1, 0, 0, 0, 0, 0, 0] ++ [7, 7]) = .ok ([], []) :=
  c10_read_ase_ignores_suffix [65, 83, 69, 70, 0, 1, 0, 0, 0, 0, 0, 0] [7, 7]
    ([], []) rfl

/-- C3.  When the block loop of `read_ase` terminates normally — the
blocks-remaining counter has reached zero without an error — a `GroupHold`
still in `HoldingBuilding` makes the decode succeed with the held group
appended to the returned group list, while a `GroupHold` in `HoldingBuilt`
makes the decode fail with `Invalid(GroupEnd)`; this holds at every such
loop state (any remaining input, held value, accumulators, skip state). -/
theorem c3_loop_end_groupHold (fuel : Nat) (s : List Nat) (hv : Group)
    (gs : List Group) (cs : List ColorBlock) (k : Nat) (sf : Bool) :
    readBlocks fuel s 0 .HoldingBuilding hv gs cs k sf = .ok (gs ++ [hv], cs) ∧
      readBlocks fuel s 0 .HoldingBuilt hv gs cs k sf = .error (.Invalid .GroupEnd) := by
  constructor <;> (rw [readBlocks.eq_def]; simp)

/-- C9.  An input of at least 12 bytes whose first four bytes are not
`ASEF` fails with `Invalid(FileSignature)`; an input whose first four bytes
are `ASEF` and which has at least 8 bytes, but whose next four bytes are
not the big-endian encoding of `0x00010000`, fails with
`Invalid(FileVersion)`. -/
theorem c9_header_errors (s : List Nat) :
    (12 ≤ s.length → s.take 4 ≠ [65, 83, 69, 70] →
      read_ase s = .error (.Invalid .FileSignature)) ∧
    (s.take 4 = [65, 83, 69, 70] → 8 ≤ s.length →
      (s.drop 4).take 4 ≠ [0, 1, 0, 0] →
      read_ase s = .error (.Invalid .FileVersion)) := by
  constructor
  · intro hlen hsig
    rw [read_ase, if_neg (by omega), if_pos (by simpa [FILE_SIGNATURE] using hsig)]
  · intro hsig hlen hver
    rw [read_ase, if_neg (by omega),
      if_neg (by simp [FILE_SIGNATURE, hsig]), if_neg (by simp [List.length_drop]; omega),
      if_pos (by simpa [VERSION, u32be] using hver)]

/-- C4 (amended).  After the group name parses, `Group::parse` runs its
block loop, and in each iteration of that loop: with fewer than 2 bytes
remaining past the pointer it stops with `Ok` and the blocks collected so
far; on a GroupStart or GroupEnd tag it stops with `Ok`; on an unrecognized
2-byte tag it fails with `BlockTypeError` (not a silent stop, as the claim
stated); on a ColorEntry tag with fewer than 4 bytes of length field left
it fails with `InputDataParseError`; on a ColorEntry tag whose following
ColorBlock fails to decode it stops with `Ok`; and on a ColorEntry tag
whose ColorBlock decodes it appends the block and continues past the
declared block length. -/
theorem c4_group_parse_loop :
    (∀ (bytes nlb nbs name : List Nat),
      sliceGet bytes 0 2 = some nlb →
      sliceGet bytes 2 (be2 nlb * 2) = some nbs →
      fromUtf16 (beU16s nbs) = .ok name →
      Group.parse bytes = Except.map (fun blocks => Group.mk name blocks)
        (Group.parseLoop (bytes.length + 1) bytes (be2 nlb * 2 + 2) [])) ∧
    (∀ (fuel : Nat) (bytes : List Nat) (ptr : Nat) (acc : List ColorBlock),
      (bytes.length - 1 ≤ ptr → Group.parseLoop fuel bytes ptr acc = .ok acc) ∧
      (ptr < bytes.length - 1 → ∀ g, fuel = g + 1 →
        ((be2 ((bytes.drop ptr).take 2) ≠ 0x0001 ∧
            be2 ((bytes.drop ptr).take 2) ≠ 0xc001 ∧
            be2 ((bytes.drop ptr).take 2) ≠ 0xc002) →
          Group.parseLoop fuel bytes ptr acc = .error .BlockTypeError) ∧
        ((be2 ((bytes.drop ptr).take 2) = 0xc001 ∨
            be2 ((bytes.drop ptr).take 2) = 0xc002) →
          Group.parseLoop fuel bytes ptr acc = .ok acc) ∧
        (be2 ((bytes.drop ptr).take 2) = 0x0001 →
          (bytes.length < ptr + 6 →
            Group.parseLoop fuel bytes ptr acc = .error .InputDataParseError) ∧
          (ptr + 6 ≤ bytes.length →
            (∀ e, ColorBlock.parse (bytes.drop (ptr + 6)) = .error e →
              Group.parseLoop fuel bytes ptr acc = .ok acc) ∧
            (∀ b, ColorBlock.parse (bytes.drop (ptr + 6)) = .ok b →
              Group.parseLoop fuel bytes ptr acc =
                Group.parseLoop g bytes
                  (ptr + 6 + be4 ((bytes.drop (ptr + 2)).take 4))
                  (acc ++ [b])))))) := by
  constructor
  · intro bytes nlb nbs name h1 h2 h3
    simp only [Group.parse, h1, h2, h3]
    cases Group.parseLoop (bytes.length + 1) bytes (be2 nlb * 2 + 2) [] with
    | error e => rfl
    | ok blocks => rfl
  · intro fuel bytes ptr acc
    constructor
    · intro hend
      rw [Group.parseLoop.eq_def]
      simp only [if_pos hend]
    · intro hlt g hg
      subst hg
      have hp2 : ptr + 2 ≤ bytes.length := by omega
      have hslice : sliceGet bytes ptr (ptr + 2) = some ((bytes.drop ptr).take 2) := by
        have h22 : ptr + 2 - ptr = 2 := by omega
        have hc : ptr ≤ ptr + 2 ∧ ptr + 2 ≤ bytes.length := ⟨by omega, hp2⟩
        simp only [sliceGet, if_pos hc, h22]
      rw [Group.parseLoop.eq_def]
      simp only [if_neg (by omega : ¬ bytes.length - 1 ≤ ptr), hslice]
      refine ⟨?_, ?_, ?_⟩
      · intro hbad
        simp only [BlockType.tryFrom, if_neg hbad.1, if_neg hbad.2.1, if_neg hbad.2.2]
      · intro hor
        rcases hor with htag | htag <;> simp [BlockType.tryFrom, htag]
      · intro htag
        constructor
        · intro hshort
          have hnone : sliceGet bytes (ptr + 2) (ptr + 2 + 4) = none := by
            simp only [sliceGet]
            exact if_neg (fun hh => absurd hh.2 (by omega))
          simp [BlockType.tryFrom, htag, hnone]
        · intro hlong
          have h44 : ptr + 2 + 4 - (ptr + 2) = 4 := by omega
          have hlen : sliceGet bytes (ptr + 2) (ptr + 2 + 4) =
              some ((bytes.drop (ptr + 2)).take 4) := by
            have hc : ptr + 2 ≤ ptr + 2 + 4 ∧ ptr + 2 + 4 ≤ bytes.length :=
              ⟨by omega, by omega⟩
            simp only [sliceGet, if_pos hc, h44]
          have htail : sliceFrom bytes (ptr + 2 + 4) = some (bytes.drop (ptr + 6)) := by
            simp only [sliceFrom, if_pos (by omega : ptr + 2 + 4 ≤ bytes.length)]
          constructor
          · intro e he
            simp [BlockType.tryFrom, htag, hlen, htail, he]
          · intro b hb
            simp [BlockType.tryFrom, htag, hlen, htail, hb]

/-- C4, witness: the loop characterization at concrete inputs — a group
whose remaining bytes stop the loop immediately; a GroupEnd tag stopping
the loop without error; a ColorEntry tag with a truncated length field
failing; and a ColorEntry tag whose ColorBlock fails to decode stopping
without error. -/
theorem c4_group_parse_loop_witness :
    Group.parse [0, 1, 192, 2] = .ok ⟨[], []⟩ ∧
    Group.parseLoop 5 [9, 9, 192, 2, 5] 2 [] = .ok [] ∧
    Group.parseLoop 7 [9, 9, 0, 1, 0, 0, 0] 2 [] = .error .InputDataParseError ∧
    Group.parseLoop 7 [0, 1, 0, 0, 0, 34, 1] 0 [] = .ok [] := by
  refine ⟨?_, ?_, ?_, ?_⟩
  · have h1 := c4_group_parse_loop.1 [0, 1, 192, 2] [0, 1] [] [] rfl rfl rfl
    have h2 : Group.parseLoop ([0, 1, 192, 2].length + 1) [0, 1, 192, 2]
        (be2 [0, 1] * 2 + 2) [] = .ok [] :=
      (c4_group_parse_loop.2 ([0, 1, 192, 2].length + 1) [0, 1, 192, 2]
        (be2 [0, 1] * 2 + 2) []).1 (by decide)
    rw [h1, h2]; rfl
  · exact (((c4_group_parse_loop.2 5 [9, 9, 192, 2, 5] 2 []).2 (by decide) 4
      rfl).2.1) (Or.inr (by decide))
  · exact ((((c4_group_parse_loop.2 7 [9, 9, 0, 1, 0, 0, 0] 2 []).2 (by decide) 6
      rfl).2.2) (by decide)).1 (by decide)
  · exact (((((c4_group_parse_loop.2 7 [0, 1, 0, 0, 0, 34, 1] 0 []).2 (by decide) 6
      rfl).2.2) (by decide)).2 (by decide)).1 .InputDataParseError rfl

/-- C7 (amended).  Once the name and the color value of a color block have
parsed, `ColorBlock::parse` reads the ColorType from the byte at index
`name_end + 4 + payload_length + 1` — one past the position immediately
following the color payload, i.e. the low byte of the block's 2-byte
color-type field: if that byte is absent the parse fails with
`InputDataParseError`; if its value is outside `{0, 1, 2}` the parse fails
with `ColorTypeError`; and otherwise the parse succeeds with the
corresponding ColorType. -/
theorem c7_color_type_position (bytes nlb nbs name : List Nat) (cv : ColorValue)
    (h1 : sliceGet bytes 0 2 = some nlb)
    (h2 : sliceGet bytes 2 (be2 nlb * 2) = some nbs)
    (h3 : fromUtf16 (beU16s nbs) = .ok name)
    (h4 : be2 nlb * 2 + 2 ≤ bytes.length)
    (h5 : ColorValue.tryFrom (bytes.drop (be2 nlb * 2 + 2)) = .ok cv) :
    (bytes.get? (be2 nlb * 2 + 2 + cv.calculate_length + 4 + 1) = none →
      ColorBlock.parse bytes = .error .InputDataParseError) ∧
    (∀ v, bytes.get? (be2 nlb * 2 + 2 + cv.calculate_length + 4 + 1) = some v →
      ((v ≠ 0 ∧ v ≠ 1 ∧ v ≠ 2) → ColorBlock.parse bytes = .error .ColorTypeError) ∧
      (∀ t, ColorType.tryFrom v = .ok t → ColorBlock.parse bytes = .ok ⟨name, cv, t⟩)) := by
  have hfrom : sliceFrom bytes (be2 nlb * 2 + 2) = some (bytes.drop (be2 nlb * 2 + 2)) := by
    simp only [sliceFrom, if_pos h4]
  constructor
  · intro hnone
    simp only [ColorBlock.parse, h1, h2, h3, hfrom, h5, hnone]
  · intro v hv
    constructor
    · intro hbad
      have hct : ColorType.tryFrom v = .error .ColorTypeError := by
        simp only [ColorType.tryFrom, if_neg hbad.1, if_neg hbad.2.1, if_neg hbad.2.2]
      simp only [ColorBlock.parse, h1, h2, h3, hfrom, h5, hv, hct]
    · intro t ht
      simp only [ColorBlock.parse, h1, h2, h3, hfrom, h5, hv, ht]

/-- C7, witness: on the crate's own invalid-color-type test input the byte
at the read position is `28`, so the parse fails with `ColorTypeError`; the
theorem applied once more shows a valid byte there succeeding. -/
theorem c7_color_type_position_witness :
    ColorBlock.parse [0, 1, 0, 0, 71, 114, 97, 121, 63, 0, 0, 0, 0, 28] =
      .error .ColorTypeError ∧
    ColorBlock.parse [0, 1, 0, 0, 71, 114, 97, 121, 63, 0, 0, 0, 0, 1] =
      .ok ⟨[], .Gray 0x3F000000, .Spot⟩ := by
  constructor
  · exact ((c7_color_type_position [0, 1, 0, 0, 71, 114, 97, 121, 63, 0, 0, 0, 0, 28]
      [0, 1] [] [] (.Gray 0x3F000000) rfl rfl rfl (by decide) rfl).2 28
        rfl).1 (by decide)
  · exact ((c7_color_type_position [0, 1, 0, 0, 71, 114, 97, 121, 63, 0, 0, 0, 0, 1]
      [0, 1] [] [] (.Gray 0x3F000000) rfl rfl rfl (by decide) rfl).2 1
        rfl).2 .Spot rfl

/-- C9, witness: a 12-byte input with a wrong signature and an 8-byte input
with the right signature but wrong version. -/
theorem c9_header_errors_witness :
    read_ase [66, 66, 66, 66, 0, 0, 0, 0, 0, 0, 0, 0] =
      .error (.Invalid .FileSignature) ∧
    read_ase [65, 83, 69, 70, 9, 9, 9, 9] = .error (.Invalid .FileVersion) :=
  ⟨(c9_header_errors _).1 (by decide) (by decide),
   (c9_header_errors _).2 (by decide) (by decide) (by decide)⟩

end ASE
